import Mathlib

/-!
Verification of the PATE teacher-training script (`PATE/train_teachers.py`).

The development shallowly embeds the two components of the script:

* the dataset partitioner `partition_dataset` (lines 32-48), including the
  Python slice semantics it relies on and the `assert` preconditions, and
* the epoch-based training loop of `main` (lines 132-182), modelled as a
  state-transition function over an abstract numerical framework, together
  with the checkpoint-path construction (lines 136-138) and the
  `num_epochs` budget computation (line 154).

Python integer division `int(a / b)` truncates toward zero, which is
`Int.tdiv`; fallible operations (failed `assert`, `ZeroDivisionError`) are
modelled with `Option`.
-/

namespace PATE

/-- Resolution of one endpoint of a Python slice `xs[i:j]` for a sequence of
length `n`: a negative index counts from the end (clamped below at 0), a
non-negative index is clamped above at `n`. -/
def pySliceIdx (n : Nat) (i : Int) : Nat :=
  if i < 0 then ((n : Int) + i).toNat else min i.toNat n

/-- Python slice `xs[i:j]` (step 1) over a list, with full Python index
semantics for possibly negative `i`, `j`. -/
def pySlice (xs : List α) (i j : Int) : List α :=
  (xs.drop (pySliceIdx xs.length i)).take
    (pySliceIdx xs.length j - pySliceIdx xs.length i)

/-- Embedding of `partition_dataset(data, labels, nb_teachers, teacher_id)`
(train_teachers.py lines 32-48).  The two `assert`s (line 34: equal lengths,
line 35: `teacher_id < nb_teachers`) and the `ZeroDivisionError` raised by
`int(len(data) / nb_teachers)` when `nb_teachers == 0` are modelled as
`none`.  `batch_len = int(len(data) / nb_teachers)` truncates toward zero
(`Int.tdiv`); the slices `data[start:end]` use Python slice semantics. -/
def partition_dataset (data : List α) (labels : List β)
    (nb_teachers teacher_id : Int) : Option (List α × List β × Int) :=
  if data.length ≠ labels.length then none
  else if ¬ teacher_id < nb_teachers then none
  else if nb_teachers = 0 then none
  else
    let batch_len : Int := Int.tdiv (data.length : Int) nb_teachers
    let start := teacher_id * batch_len
    let endIdx := (teacher_id + 1) * batch_len
    some (pySlice data start endIdx, pySlice labels start endIdx, batch_len)

/-- Embedding of the epoch-count computation of `main` (line 154):
`num_epochs = min(100, math.floor(max_steps / math.ceil(batch_len /
batch_size)))`.  A zero `batch_size` makes `batch_len / batch_size` raise
`ZeroDivisionError`, and a zero batch count makes the outer division raise
`ZeroDivisionError`; both are modelled as `none`. -/
def num_epochs (max_steps batch_len batch_size : Nat) : Option Nat :=
  if batch_size = 0 then none
  else
    let batches := (batch_len + batch_size - 1) / batch_size
    if batches = 0 then none
    else some (min 100 (max_steps / batches))

/-- Embedding of `filename` (lines 136-137):
`str(nb_teachers) + '_teachers_' + str(teacher_id) + '.ckpt'`. -/
def ckpt_filename (nb_teachers teacher_id : Int) : String :=
  toString nb_teachers ++ "_teachers_" ++ toString teacher_id ++ ".ckpt"

/-- Embedding of `ckpt_path` (line 138):
`train_dir + '/' + str(dataset) + '_' + filename`. -/
def ckpt_path (train_dir dataset : String) (nb_teachers teacher_id : Int) : String :=
  train_dir ++ "/" ++ dataset ++ "_" ++ ckpt_filename nb_teachers teacher_id

/-- Abstract interface to the numerical framework used by `main`.  `W` is the
model weight state, `B` a mini-batch, `V` a metric value.
`apply_gradients w b` is the weight update performed by
`optimizer.apply_gradients` on the gradients of the loss at `w` on batch `b`
(line 117); `train_pred_loss`/`train_pred_acc` are the loss and accuracy of
the forward pass `model(images, training=True)` (lines 113-114, 119-120);
`eval_pred_loss`/`eval_pred_acc` those of `model(images, training=False)`
(lines 125-129). -/
structure Framework (W B V : Type) where
  apply_gradients : W → B → W
  train_pred_loss : W → B → V
  train_pred_acc : W → B → V
  eval_pred_loss : W → B → V
  eval_pred_acc : W → B → V

/-- The four Keras metric accumulators of `main` (lines 144-150), each
modelled as the list of values pushed since the last `reset_states`. -/
structure Metrics (V : Type) where
  train_loss : List V
  train_accuracy : List V
  test_loss : List V
  test_accuracy : List V
  deriving DecidableEq

/-- The all-empty accumulator state produced by the four `reset_states`
calls (lines 161-164). -/
def Metrics.reset_all (V : Type) : Metrics V := ⟨[], [], [], []⟩

/-- The mutable state of one training process: the model weights, the four
metric accumulators, and the (single) checkpoint slot, recording the path
written to and the weights stored there. -/
structure TrainerState (W V : Type) where
  weights : W
  metrics : Metrics V
  checkpoint : Option (String × W)
  deriving DecidableEq

/-- Embedding of `train_step` (lines 110-120): forward pass and loss at the
current weights, one optimizer update, then the loss and accuracy of that
(pre-update) forward pass are pushed into the train accumulators. -/
def train_step (F : Framework W B V) (s : TrainerState W V) (b : B) :
    TrainerState W V :=
  { s with
    weights := F.apply_gradients s.weights b,
    metrics := { s.metrics with
      train_loss := s.metrics.train_loss ++ [F.train_pred_loss s.weights b],
      train_accuracy := s.metrics.train_accuracy ++ [F.train_pred_acc s.weights b] } }

/-- Embedding of `test_step` (lines 123-129): forward pass only; the loss
and accuracy are pushed into the test accumulators, nothing else changes. -/
def test_step (F : Framework W B V) (s : TrainerState W V) (b : B) :
    TrainerState W V :=
  { s with
    metrics := { s.metrics with
      test_loss := s.metrics.test_loss ++ [F.eval_pred_loss s.weights b],
      test_accuracy := s.metrics.test_accuracy ++ [F.eval_pred_acc s.weights b] } }

/-- Observable events of one run of the training loop. -/
inductive Event where
  | epochStart : Event
  | trainBatch : Event
  | checkpointWrite : String → Event
  | testBatch : Event
  | epochEnd : Event
  deriving DecidableEq

/-- The path a checkpoint-write event writes to, if the event is one. -/
def Event.write_target : Event → Option String
  | Event.checkpointWrite p => some p
  | _ => none

/-- The `EpochStart` phase (lines 161-164): reset all four metric
accumulators. -/
def epoch_start (s : TrainerState W V) : TrainerState W V :=
  { s with metrics := Metrics.reset_all V }

/-- Embedding of `model.save_weights(ckpt_path)` (line 172): overwrite the
checkpoint slot with the current weights at path `p`. -/
def save_weights (p : String) (s : TrainerState W V) : TrainerState W V :=
  { s with checkpoint := some (p, s.weights) }

/-- One iteration of the training loop of `main` (lines 158-182), with its
event trace: reset metrics, one `train_step` per training batch, write the
checkpoint, one `test_step` per test batch, log. -/
def run_epoch (F : Framework W B V) (p : String) (train_ds test_ds : List B)
    (s : TrainerState W V) : TrainerState W V × List Event :=
  let s1 := epoch_start s
  let s2 := train_ds.foldl (train_step F) s1
  let s3 := save_weights p s2
  let s4 := test_ds.foldl (test_step F) s3
  (s4, [Event.epochStart] ++ train_ds.map (fun _ => Event.trainBatch)
    ++ [Event.checkpointWrite p] ++ test_ds.map (fun _ => Event.testBatch)
    ++ [Event.epochEnd])

/-- The full training loop of `main` (line 158): `n` epochs run in
sequence, with the concatenated event trace. -/
def training_loop (F : Framework W B V) (p : String) (train_ds test_ds : List B) :
    Nat → TrainerState W V → TrainerState W V × List Event
  | 0, s => (s, [])
  | n + 1, s =>
    let r1 := run_epoch F p train_ds test_ds s
    let r2 := training_loop F p train_ds test_ds n r1.1
    (r2.1, r1.2 ++ r2.2)

/-- The event pattern of a single epoch: `EpochStart`, one train batch per
training-stream element, the checkpoint write, one test batch per
test-stream element, `EpochEnd`. -/
def epoch_events (p : String) (nTrain nTest : Nat) : List Event :=
  [Event.epochStart] ++ List.replicate nTrain Event.trainBatch
    ++ [Event.checkpointWrite p] ++ List.replicate nTest Event.testBatch
    ++ [Event.epochEnd]

/-! ### Helper lemmas about Python slices and the partitioner -/

lemma pySliceIdx_natCast (n a : Nat) (ha : a ≤ n) : pySliceIdx n (a : Int) = a := by
  unfold pySliceIdx
  rw [if_neg (by simp)]
  simp
  omega

lemma pySlice_natCast (xs : List α) (a b : Nat) (hb : b ≤ xs.length) (hab : a ≤ b) :
    pySlice xs (a : Int) (b : Int) = (xs.drop a).take (b - a) := by
  unfold pySlice
  rw [pySliceIdx_natCast _ _ (le_trans hab hb), pySliceIdx_natCast _ _ hb]

/-- Characterisation of `partition_dataset` on inputs satisfying both
`assert`s together with `0 ≤ teacher_id`: it returns the contiguous block
of `floor(N / nb_teachers)` items starting at index
`teacher_id * floor(N / nb_teachers)`, in both sequences. -/
lemma partition_dataset_eq (data : List α) (labels : List β) (nb tid : Int)
    (hlen : data.length = labels.length) (h0 : 0 ≤ tid) (hlt : tid < nb) :
    partition_dataset data labels nb tid
      = some ((data.drop (tid.toNat * (data.length / nb.toNat))).take
                (data.length / nb.toNat),
              (labels.drop (tid.toNat * (data.length / nb.toNat))).take
                (data.length / nb.toNat),
              ((data.length / nb.toNat : Nat) : Int)) := by
  obtain ⟨t, rfl⟩ := Int.eq_ofNat_of_zero_le h0
  obtain ⟨k, rfl⟩ := Int.eq_ofNat_of_zero_le (le_trans h0 (le_of_lt hlt))
  have htk : t < k := by exact_mod_cast hlt
  simp only [partition_dataset]
  rw [if_neg (by omega), if_neg (by omega), if_neg (by omega)]
  have htdiv : Int.tdiv (data.length : Int) (k : Int) = ((data.length / k : Nat) : Int) := rfl
  set N := data.length with hN
  set bn := N / k with hbn
  have hkbn : k * bn ≤ N := by
    rw [hbn, mul_comm]
    exact Nat.div_mul_le_self N k
  have hub : (t + 1) * bn ≤ N :=
    le_trans (Nat.mul_le_mul_right bn htk) hkbn
  have hstart : ((t : Int)) * Int.tdiv (N : Int) (k : Int) = ((t * bn : Nat) : Int) := by
    rw [htdiv]; push_cast; ring
  have hstop : ((t : Int) + 1) * Int.tdiv (N : Int) (k : Int) = (((t + 1) * bn : Nat) : Int) := by
    rw [htdiv]; push_cast; ring
  have hsub : (t + 1) * bn - t * bn = bn := by
    rw [add_one_mul, Nat.add_sub_cancel_left]
  rw [hstart, hstop, htdiv]
  rw [pySlice_natCast data _ _ hub (Nat.mul_le_mul_right bn (Nat.le_succ t))]
  rw [pySlice_natCast labels _ _ (hlen ▸ hub) (Nat.mul_le_mul_right bn (Nat.le_succ t))]
  rw [hsub]
  simp [hbn]

lemma pySlice_to_zero (xs : List α) (i : Int) : pySlice xs i 0 = [] := by
  unfold pySlice pySliceIdx
  simp

lemma flatten_blocks (xs : List α) (bn : Nat) :
    ∀ m, m * bn ≤ xs.length →
      ((List.range m).map (fun i => (xs.drop (i * bn)).take bn)).flatten
        = xs.take (m * bn) := by
  intro m
  induction m with
  | zero => intro _; simp
  | succ m ih =>
    intro h
    have hstep : (m + 1) * bn = m * bn + bn := add_one_mul m bn
    have hm : m * bn ≤ xs.length := by
      refine le_trans ?_ h
      rw [hstep]
      exact Nat.le_add_right _ _
    rw [List.range_succ, List.map_append, List.flatten_append, ih hm]
    simp only [List.map_cons, List.map_nil, List.flatten_cons, List.flatten_nil,
      List.append_nil]
    rw [hstep, List.take_add]

/-! ### Claims about the partitioner and the epoch budget -/

/-- C1: for sequences of equal length `N`, `nb_teachers ≥ 1` and
`0 ≤ teacher_id < nb_teachers`, `partition_dataset` returns
`(data[start:end], labels[start:end], block_len)` with
`block_len = floor(N / nb_teachers)`, `start = teacher_id * block_len`,
`end = (teacher_id + 1) * block_len`, and both returned partitions have
length exactly `floor(N / nb_teachers)`. -/
theorem partition_dataset_spec (data : List α) (labels : List β) (nb tid : Int)
    (hlen : data.length = labels.length) (h0 : 0 ≤ tid) (hlt : tid < nb) :
    ∃ bn : Nat, bn = data.length / nb.toNat
      ∧ partition_dataset data labels nb tid
          = some ((data.drop (tid.toNat * bn)).take bn,
                  (labels.drop (tid.toNat * bn)).take bn, (bn : Int))
      ∧ ((data.drop (tid.toNat * bn)).take bn).length = bn
      ∧ ((labels.drop (tid.toNat * bn)).take bn).length = bn := by
  have htk : tid.toNat < nb.toNat := by omega
  have hkbn : nb.toNat * (data.length / nb.toNat) ≤ data.length := by
    rw [mul_comm]
    exact Nat.div_mul_le_self _ _
  have hub : (tid.toNat + 1) * (data.length / nb.toNat) ≤ data.length :=
    le_trans (Nat.mul_le_mul_right _ htk) hkbn
  have hstep : (tid.toNat + 1) * (data.length / nb.toNat)
      = tid.toNat * (data.length / nb.toNat) + (data.length / nb.toNat) :=
    add_one_mul _ _
  refine ⟨data.length / nb.toNat, rfl,
    partition_dataset_eq data labels nb tid hlen h0 hlt, ?_, ?_⟩
  · simp only [List.length_take, List.length_drop]
    omega
  · simp only [List.length_take, List.length_drop]
    omega

/-- Witness for C1 at `data = [5, 6, 7]`, `labels = [1, 2, 3]`,
`nb_teachers = 2`, `teacher_id = 1`. -/
theorem partition_dataset_spec_witness :
    ([5, 6, 7] : List Nat).length = ([1, 2, 3] : List Nat).length
    ∧ ((0 : Int) ≤ 1 ∧ (1 : Int) < 2)
    ∧ ∃ bn : Nat, bn = ([5, 6, 7] : List Nat).length / (2 : Int).toNat
      ∧ partition_dataset ([5, 6, 7] : List Nat) ([1, 2, 3] : List Nat) 2 1
          = some ((([5, 6, 7] : List Nat).drop ((1 : Int).toNat * bn)).take bn,
                  (([1, 2, 3] : List Nat).drop ((1 : Int).toNat * bn)).take bn,
                  (bn : Int))
      ∧ ((([5, 6, 7] : List Nat).drop ((1 : Int).toNat * bn)).take bn).length = bn
      ∧ ((([1, 2, 3] : List Nat).drop ((1 : Int).toNat * bn)).take bn).length = bn :=
  ⟨rfl, ⟨by decide, by decide⟩,
    partition_dataset_spec [5, 6, 7] [1, 2, 3] 2 1 rfl (by decide) (by decide)⟩

/-- C2: for fixed `N` and `nb_teachers ≥ 1` the partitions over all
`teacher_id ∈ [0, nb_teachers)` concatenate, in increasing teacher order,
to exactly the first `nb_teachers * floor(N / nb_teachers)` items of the
data; the final `N mod nb_teachers` items belong to no partition, and the
index ranges are in increasing order (hence pairwise disjoint). -/
theorem partition_dataset_cover (data : List α) (labels : List β) (nb : Int)
    (hlen : data.length = labels.length) (hnb : 1 ≤ nb) :
    ((List.range nb.toNat).map (fun (tid : Nat) =>
        ((partition_dataset data labels nb (tid : Int)).map (fun r => r.1)).getD
          [])).flatten
      = data.take (nb.toNat * (data.length / nb.toNat))
    ∧ nb.toNat * (data.length / nb.toNat) + data.length % nb.toNat = data.length
    ∧ ∀ i j : Nat, i < j → j < nb.toNat →
        (i + 1) * (data.length / nb.toNat) ≤ j * (data.length / nb.toNat) := by
  refine ⟨?_, Nat.div_add_mod _ _, ?_⟩
  · have hmap : ∀ tid ∈ List.range nb.toNat,
        ((partition_dataset data labels nb (tid : Int)).map (fun r => r.1)).getD []
          = (data.drop (tid * (data.length / nb.toNat))).take
              (data.length / nb.toNat) := by
      intro tid htid
      rw [List.mem_range] at htid
      have h0 : (0 : Int) ≤ (tid : Int) := by omega
      have hltn : (tid : Int) < nb := by omega
      rw [partition_dataset_eq data labels nb tid hlen h0 hltn]
      simp
    rw [List.map_congr_left hmap]
    refine flatten_blocks data _ _ ?_
    rw [mul_comm]
    exact Nat.div_mul_le_self _ _
  · intro i j hij _
    exact Nat.mul_le_mul_right _ hij

/-- Witness for C2 at `data = [5, 6, 7, 8, 9]`, `labels = [1, 2, 3, 4, 5]`,
`nb_teachers = 2`. -/
theorem partition_dataset_cover_witness :
    ([5, 6, 7, 8, 9] : List Nat).length = ([1, 2, 3, 4, 5] : List Nat).length
    ∧ (1 : Int) ≤ 2
    ∧ (((List.range (2 : Int).toNat).map (fun (tid : Nat) =>
          ((partition_dataset ([5, 6, 7, 8, 9] : List Nat)
              ([1, 2, 3, 4, 5] : List Nat) 2 (tid : Int)).map
            (fun r => r.1)).getD [])).flatten
        = ([5, 6, 7, 8, 9] : List Nat).take
            ((2 : Int).toNat * (([5, 6, 7, 8, 9] : List Nat).length / (2 : Int).toNat))
      ∧ (2 : Int).toNat * (([5, 6, 7, 8, 9] : List Nat).length / (2 : Int).toNat)
          + ([5, 6, 7, 8, 9] : List Nat).length % (2 : Int).toNat
          = ([5, 6, 7, 8, 9] : List Nat).length
      ∧ ∀ i j : Nat, i < j → j < (2 : Int).toNat →
          (i + 1) * (([5, 6, 7, 8, 9] : List Nat).length / (2 : Int).toNat)
            ≤ j * (([5, 6, 7, 8, 9] : List Nat).length / (2 : Int).toNat)) :=
  ⟨rfl, by decide,
    partition_dataset_cover [5, 6, 7, 8, 9] [1, 2, 3, 4, 5] 2 rfl (by decide)⟩

/-- C3: `partition_dataset` fails (assertion, modelled as `none`) whenever
`teacher_id ≥ nb_teachers`, and whenever the data and labels sequences have
different lengths. -/
theorem partition_dataset_precondition (data : List α) (labels : List β)
    (nb tid : Int) :
    (data.length ≠ labels.length → partition_dataset data labels nb tid = none)
    ∧ (nb ≤ tid → partition_dataset data labels nb tid = none) := by
  constructor
  · intro h
    simp only [partition_dataset]
    rw [if_pos h]
  · intro h
    simp only [partition_dataset]
    by_cases hl : data.length ≠ labels.length
    · rw [if_pos hl]
    · rw [if_neg hl, if_pos (by omega)]

/-- Witness for C3: a length mismatch and an out-of-range teacher id. -/
theorem partition_dataset_precondition_witness :
    partition_dataset ([0] : List Nat) ([] : List Nat) 5 0 = none
    ∧ partition_dataset ([0, 1] : List Nat) ([5, 6] : List Nat) 2 3 = none :=
  ⟨(partition_dataset_precondition [0] [] 5 0).1 (by decide),
   (partition_dataset_precondition [0, 1] [5, 6] 2 3).2 (by decide)⟩

/-- C9: any negative `teacher_id` passes both `assert`s (it satisfies
`teacher_id < nb_teachers` for positive `nb_teachers`), so
`partition_dataset` returns without failing; but the returned partition
need not contain `block_len` examples: for `teacher_id = -1` (with
`N ≥ nb_teachers ≥ 2`) both returned slices are empty while `block_len`
is still `floor(N / nb_teachers)`. -/
theorem partition_dataset_negative_id (data : List α) (labels : List β)
    (nb tid : Int) (hlen : data.length = labels.length) (hnb : 1 ≤ nb)
    (hneg : tid < 0) :
    tid < nb
    ∧ (partition_dataset data labels nb tid).isSome = true
    ∧ (2 ≤ nb → nb ≤ (data.length : Int) →
        partition_dataset data labels nb (-1)
          = some ([], [], ((data.length / nb.toNat : Nat) : Int))) := by
  refine ⟨by omega, ?_, ?_⟩
  · simp only [partition_dataset]
    rw [if_neg (by omega), if_neg (by omega), if_neg (by omega)]
    rfl
  · intro _ _
    obtain ⟨k, rfl⟩ := Int.eq_ofNat_of_zero_le (le_trans zero_le_one hnb)
    simp only [partition_dataset]
    rw [if_neg (by omega), if_neg (by omega), if_neg (by omega)]
    have hz : ((-1 : Int) + 1) * Int.tdiv (data.length : Int) (k : Int) = 0 := by
      ring
    rw [hz, pySlice_to_zero, pySlice_to_zero]
    have htdiv : Int.tdiv (data.length : Int) (k : Int)
        = ((data.length / k : Nat) : Int) := rfl
    rw [htdiv]
    simp

/-- Witness for C9 at `data = [0, 1, 2, 3]`, `labels = [4, 5, 6, 7]`,
`nb_teachers = 2`, `teacher_id = -1`. -/
theorem partition_dataset_negative_id_witness :
    ([0, 1, 2, 3] : List Nat).length = ([4, 5, 6, 7] : List Nat).length
    ∧ (1 : Int) ≤ 2 ∧ (-1 : Int) < 0
    ∧ ((-1 : Int) < 2
      ∧ (partition_dataset ([0, 1, 2, 3] : List Nat) ([4, 5, 6, 7] : List Nat)
          2 (-1)).isSome = true
      ∧ ((2 : Int) ≤ 2 → (2 : Int) ≤ ((([0, 1, 2, 3] : List Nat).length : Int)) →
          partition_dataset ([0, 1, 2, 3] : List Nat) ([4, 5, 6, 7] : List Nat)
            2 (-1)
            = some ([], [],
                ((([0, 1, 2, 3] : List Nat).length / (2 : Int).toNat : Nat) : Int)))) :=
  ⟨rfl, by decide, by decide,
    partition_dataset_negative_id [0, 1, 2, 3] [4, 5, 6, 7] 2 (-1) rfl
      (by decide) (by decide)⟩

/-- C10: whenever `nb_teachers` exceeds the dataset length, the returned
`block_len` is `0`, and the `num_epochs` computation of `main` divides by
`ceil(0 / batch_size) = 0` and fails (`ZeroDivisionError`, modelled as
`none`) before any training. -/
theorem block_len_zero_division (data : List α) (labels : List β) (nb tid : Int)
    (max_steps batch_size : Nat)
    (hlen : data.length = labels.length) (h0 : 0 ≤ tid) (hlt : tid < nb)
    (hsmall : (data.length : Int) < nb) :
    partition_dataset data labels nb tid = some ([], [], 0)
    ∧ num_epochs max_steps 0 batch_size = none := by
  constructor
  · have hbn : data.length / nb.toNat = 0 := Nat.div_eq_of_lt (by omega)
    have hpart := partition_dataset_eq data labels nb tid hlen h0 hlt
    rw [hbn] at hpart
    simpa using hpart
  · simp only [num_epochs]
    by_cases hbs : batch_size = 0
    · rw [if_pos hbs]
    · rw [if_neg hbs, if_pos (Nat.div_eq_of_lt (by omega))]

/-- Witness for C10 at a one-element dataset with two teachers. -/
theorem block_len_zero_division_witness :
    ([0] : List Nat).length = ([9] : List Nat).length
    ∧ (0 : Int) ≤ 1 ∧ (1 : Int) < 2
    ∧ ((([0] : List Nat).length : Int) < 2)
    ∧ partition_dataset ([0] : List Nat) ([9] : List Nat) 2 1 = some ([], [], 0)
    ∧ num_epochs 3000 0 128 = none :=
  ⟨rfl, by decide, by decide, by decide,
    (block_len_zero_division [0] [9] 2 1 3000 128 rfl (by decide) (by decide)
      (by decide)).1,
    (block_len_zero_division [0] [9] 2 1 3000 128 rfl (by decide) (by decide)
      (by decide)).2⟩

/-- C4: `num_epochs = min(100, floor(max_steps / ceil(block_len /
batch_size)))`, so the total number of gradient updates
(`num_epochs * ceil(block_len / batch_size)`) never exceeds `max_steps`,
and `num_epochs` never exceeds 100. -/
theorem num_epochs_budget (max_steps batch_len batch_size : Nat)
    (hbs : 1 ≤ batch_size) (hbl : 1 ≤ batch_len) :
    ∃ e, num_epochs max_steps batch_len batch_size = some e
      ∧ e = min 100 (max_steps / ((batch_len + batch_size - 1) / batch_size))
      ∧ e ≤ 100
      ∧ e * ((batch_len + batch_size - 1) / batch_size) ≤ max_steps := by
  have hb1 : 1 ≤ (batch_len + batch_size - 1) / batch_size :=
    (Nat.one_le_div_iff (by omega)).mpr (by omega)
  refine ⟨min 100 (max_steps / ((batch_len + batch_size - 1) / batch_size)),
    ?_, rfl, min_le_left _ _, ?_⟩
  · simp only [num_epochs]
    rw [if_neg (by omega), if_neg (Nat.pos_iff_ne_zero.mp hb1)]
  · calc min 100 (max_steps / ((batch_len + batch_size - 1) / batch_size))
          * ((batch_len + batch_size - 1) / batch_size)
        ≤ (max_steps / ((batch_len + batch_size - 1) / batch_size))
          * ((batch_len + batch_size - 1) / batch_size) :=
        Nat.mul_le_mul_right _ (min_le_right _ _)
    _ ≤ max_steps := Nat.div_mul_le_self _ _

/-- Witness for C4 at the documented instance `max_steps = 3000`,
`block_len = 1200`, `batch_size = 128`: 10 batches per epoch and
`num_epochs = 100`. -/
theorem num_epochs_budget_witness :
    1 ≤ 128 ∧ 1 ≤ 1200
    ∧ (1200 + 128 - 1) / 128 = 10
    ∧ num_epochs 3000 1200 128 = some 100
    ∧ ∃ e, num_epochs 3000 1200 128 = some e
        ∧ e = min 100 (3000 / ((1200 + 128 - 1) / 128))
        ∧ e ≤ 100
        ∧ e * ((1200 + 128 - 1) / 128) ≤ 3000 :=
  ⟨by decide, by decide, by decide, by decide,
    num_epochs_budget 3000 1200 128 (by decide) (by decide)⟩

/-! ### Helper lemmas about the training loop -/

lemma foldl_test_step_weights (F : Framework W B V) :
    ∀ (te : List B) (s : TrainerState W V),
      (te.foldl (test_step F) s).weights = s.weights
      ∧ (te.foldl (test_step F) s).checkpoint = s.checkpoint := by
  intro te
  induction te with
  | nil => intro s; exact ⟨rfl, rfl⟩
  | cons b te ih =>
    intro s
    rw [List.foldl_cons]
    exact ⟨(ih _).1, (ih _).2⟩

lemma run_epoch_checkpoint (F : Framework W B V) (p : String)
    (tr te : List B) (s : TrainerState W V) :
    ((run_epoch F p tr te s).1).checkpoint
      = some (p, (run_epoch F p tr te s).1.weights) := by
  simp only [run_epoch]
  rw [(foldl_test_step_weights F te _).2, (foldl_test_step_weights F te _).1]
  rfl

lemma training_loop_checkpoint (F : Framework W B V) (p : String) (tr te : List B) :
    ∀ (n : Nat) (s : TrainerState W V), 1 ≤ n →
      (training_loop F p tr te n s).1.checkpoint
        = some (p, (training_loop F p tr te n s).1.weights) := by
  intro n
  induction n with
  | zero => intro s h; omega
  | succ n ih =>
    intro s _
    cases n with
    | zero =>
      simp only [training_loop]
      exact run_epoch_checkpoint F p tr te s
    | succ m =>
      simp only [training_loop]
      exact ih _ (by omega)

lemma map_const_event (c : Event) :
    ∀ (l : List B), l.map (fun _ => c) = List.replicate l.length c := by
  intro l
  induction l with
  | nil => rfl
  | cons b l ih => simp [ih, List.replicate_succ]

lemma training_loop_trace (F : Framework W B V) (p : String) (tr te : List B) :
    ∀ (n : Nat) (s : TrainerState W V),
      (training_loop F p tr te n s).2
        = (List.replicate n (epoch_events p tr.length te.length)).flatten := by
  intro n
  induction n with
  | zero => intro s; rfl
  | succ n ih =>
    intro s
    simp only [training_loop]
    rw [ih, List.replicate_succ, List.flatten_cons]
    congr 1
    simp only [run_epoch, epoch_events]
    rw [map_const_event, map_const_event]

lemma filterMap_write_target_replicate (c : Event) (h : Event.write_target c = none) :
    ∀ k, (List.replicate k c).filterMap Event.write_target = [] := by
  intro k
  induction k with
  | zero => rfl
  | succ k ih => simp [List.replicate_succ, List.filterMap_cons, h, ih]

lemma filterMap_write_target_epoch (p : String) (a b : Nat) :
    (epoch_events p a b).filterMap Event.write_target = [p] := by
  simp only [epoch_events, List.filterMap_append,
    filterMap_write_target_replicate Event.trainBatch rfl,
    filterMap_write_target_replicate Event.testBatch rfl]
  rfl

lemma training_loop_writes (F : Framework W B V) (p : String) (tr te : List B)
    (n : Nat) (s : TrainerState W V) :
    (training_loop F p tr te n s).2.filterMap Event.write_target
      = List.replicate n p := by
  rw [training_loop_trace]
  induction n with
  | zero => rfl
  | succ n ih =>
    rw [List.replicate_succ, List.flatten_cons, List.filterMap_append, ih,
      filterMap_write_target_epoch]
    rfl

/-! ### Claims about the training loop -/

/-- C5: each iteration of the training loop follows the fixed order
`EpochStart` (metric reset), `TrainBatchLoop` (one `train_step` per batch),
`Checkpoint` (unconditional write), `TestBatchLoop`, `EpochEnd`; the trace
of `n` epochs is `n` copies of that pattern, the checkpoint is written once
per epoch, and after the loop terminates the checkpoint slot holds exactly
the final weights. -/
theorem training_loop_epoch_order (F : Framework W B V) (p : String)
    (tr te : List B) (n : Nat) (s : TrainerState W V) (hn : 1 ≤ n) :
    (training_loop F p tr te n s).2
      = (List.replicate n (epoch_events p tr.length te.length)).flatten
    ∧ (training_loop F p tr te n s).2.filterMap Event.write_target
      = List.replicate n p
    ∧ (training_loop F p tr te n s).1.checkpoint
      = some (p, (training_loop F p tr te n s).1.weights) :=
  ⟨training_loop_trace F p tr te n s, training_loop_writes F p tr te n s,
   training_loop_checkpoint F p tr te n s hn⟩

/-- A concrete instance of the abstract numerical framework, used only to
instantiate the training-loop theorems at explicit inputs. -/
def natFramework : Framework Nat Nat Nat :=
  ⟨fun w b => w + b, fun w b => w + 2 * b, fun w b => w * b,
   fun w b => w + 3 * b, fun w b => w * b + 1⟩

/-- The freshly initialised trainer state: arbitrary weights, empty
metrics, no checkpoint yet. -/
def initState : TrainerState Nat Nat :=
  ⟨0, Metrics.reset_all Nat, none⟩

/-- Witness for C5: two epochs over a two-batch training stream and a
one-batch test stream. -/
theorem training_loop_epoch_order_witness :
    1 ≤ 2
    ∧ ((training_loop natFramework "t.ckpt" [1, 2] [3] 2 initState).2
        = (List.replicate 2 (epoch_events "t.ckpt" ([1, 2] : List Nat).length
            ([3] : List Nat).length)).flatten
      ∧ (training_loop natFramework "t.ckpt" [1, 2] [3] 2 initState).2.filterMap
          Event.write_target = List.replicate 2 "t.ckpt"
      ∧ (training_loop natFramework "t.ckpt" [1, 2] [3] 2 initState).1.checkpoint
        = some ("t.ckpt",
            (training_loop natFramework "t.ckpt" [1, 2] [3] 2 initState).1.weights)) :=
  ⟨by decide,
    training_loop_epoch_order natFramework "t.ckpt" [1, 2] [3] 2 initState
      (by decide)⟩

/-- C6: the checkpoint path is exactly
`{train_dir}/{dataset}_{nb_teachers}_teachers_{teacher_id}.ckpt`, and every
checkpoint write of a run targets that single path. -/
theorem ckpt_path_spec (train_dir dataset : String) (nb tid : Int)
    (F : Framework W B V) (tr te : List B) (n : Nat) (s : TrainerState W V) :
    ckpt_path train_dir dataset nb tid
      = train_dir ++ "/" ++ dataset ++ "_" ++ toString nb ++ "_teachers_"
        ++ toString tid ++ ".ckpt"
    ∧ ∀ q ∈ (training_loop F (ckpt_path train_dir dataset nb tid) tr te n
          s).2.filterMap Event.write_target,
        q = ckpt_path train_dir dataset nb tid := by
  constructor
  · simp [ckpt_path, ckpt_filename, String.append_assoc]
  · intro q hq
    rw [training_loop_writes] at hq
    exact List.eq_of_mem_replicate hq

/-- Witness for C6 at the default flags `dataset = mnist`,
`nb_teachers = 50`, `teacher_id = 0`. -/
theorem ckpt_path_spec_witness :
    ckpt_path "/tmp/train_dir" "mnist" 50 0
      = "/tmp/train_dir" ++ "/" ++ "mnist" ++ "_" ++ toString (50 : Int)
        ++ "_teachers_" ++ toString (0 : Int) ++ ".ckpt"
    ∧ ∀ q ∈ (training_loop natFramework (ckpt_path "/tmp/train_dir" "mnist" 50 0)
          [1] [2] 1 initState).2.filterMap Event.write_target,
        q = ckpt_path "/tmp/train_dir" "mnist" 50 0 :=
  ckpt_path_spec "/tmp/train_dir" "mnist" 50 0 natFramework [1] [2] 1 initState

/-- C7: `test_step` computes forward predictions only: it mutates exactly
the test loss and test accuracy accumulators, leaves the weights and the
checkpoint unchanged (as does a whole pass over the test stream), and
leaves the train accumulators unchanged. -/
theorem test_step_frame (F : Framework W B V) (s : TrainerState W V) (b : B) :
    (test_step F s b).weights = s.weights
    ∧ (test_step F s b).checkpoint = s.checkpoint
    ∧ (test_step F s b).metrics.train_loss = s.metrics.train_loss
    ∧ (test_step F s b).metrics.train_accuracy = s.metrics.train_accuracy
    ∧ (test_step F s b).metrics.test_loss
        = s.metrics.test_loss ++ [F.eval_pred_loss s.weights b]
    ∧ (test_step F s b).metrics.test_accuracy
        = s.metrics.test_accuracy ++ [F.eval_pred_acc s.weights b]
    ∧ ∀ te : List B, (te.foldl (test_step F) s).weights = s.weights :=
  ⟨rfl, rfl, rfl, rfl, rfl, rfl, fun te => (foldl_test_step_weights F te s).1⟩

/-- C8: at the start of every epoch all four metric accumulators are reset:
immediately after `EpochStart` each accumulator is empty, and the epoch's
outcome is independent of whatever the accumulators held before. -/
theorem epoch_start_reset (F : Framework W B V) (p : String) (tr te : List B)
    (s : TrainerState W V) :
    (epoch_start s).metrics.train_loss = []
    ∧ (epoch_start s).metrics.train_accuracy = []
    ∧ (epoch_start s).metrics.test_loss = []
    ∧ (epoch_start s).metrics.test_accuracy = []
    ∧ ∀ m : Metrics V, run_epoch F p tr te { s with metrics := m }
        = run_epoch F p tr te s :=
  ⟨rfl, rfl, rfl, rfl, fun _ => rfl⟩

end PATE
